import Mathlib

/-!
Verification of the document-synchronization core of a SystemVerilog
language server (`server/server.py`): the incremental edit applicator
(`_apply_incremental_changes`), the parse adapter (`_parse`), the
diagnostic extractor (`_get_diagnostics` / `_find_syntax_errors`) and the
`textDocument/didChange` handler.  Python strings are modelled by Lean
`String` viewed as its list of characters (Python indexes `str` by code
point); Python exceptions are modelled by an `Except` error channel.
-/

set_option autoImplicit false

namespace VerilogLsp

/-! ## Python string primitives

`text.split(chr)` / `chr.join(lines)` restricted to the newline character,
and code-point slicing `s[a:]`, `s[:b]`, `s[a:b]` (which clamps silently,
exactly as Python slices do). -/

/-- Model of Python `text.split(newline)` on a list of characters:
always returns at least one (possibly empty) segment. -/
def splitNl : List Char → List (List Char)
  | [] => [[]]
  | c :: cs =>
    match splitNl cs with
    | [] => [[]]
    | l :: ls => if c = '\n' then [] :: l :: ls else (c :: l) :: ls

/-- Model of Python `newline.join(segments)` on lists of characters. -/
def joinNl : List (List Char) → List Char
  | [] => []
  | [l] => l
  | l :: l' :: ls => l ++ '\n' :: joinNl (l' :: ls)

/-- Python `text.split(newline)` on `String`s, as used at line 33 of the
source (`lines = text.split(newline)`). -/
def pySplit (s : String) : List String :=
  (splitNl s.data).map String.mk

/-- Python `newline.join(lines)` on `String`s, as used at line 63 of the
source. -/
def pyJoin (ls : List String) : String :=
  String.mk (joinNl (ls.map String.data))

/-- Python `s[:n]` (clamping code-point slice). -/
def pyTake (s : String) (n : Nat) : String :=
  String.mk (s.data.take n)

/-- Python `s[n:]` (clamping code-point slice). -/
def pyDrop (s : String) (n : Nat) : String :=
  String.mk (s.data.drop n)

/-- Python `s[a:b]` (clamping code-point slice, empty when `b ≤ a`). -/
def pySlice (s : String) (a b : Nat) : String :=
  String.mk ((s.data.drop a).take (b - a))

/-- Python list slice assignment `l[a:b] = new`, which replaces the
(clamped) span and never raises: the removed span is `l[a : max a b]`. -/
def listSetSlice {α : Type} (l : List α) (a b : Nat) (new : List α) : List α :=
  l.take a ++ new ++ l.drop (max a b)

theorem splitNl_ne_nil (l : List Char) : splitNl l ≠ [] := by
  cases l with
  | nil => simp [splitNl]
  | cons c cs =>
    simp only [splitNl]
    cases h : splitNl cs with
    | nil => simp
    | cons m ms =>
      show (if c = '\n' then [] :: m :: ms else (c :: m) :: ms) ≠ []
      split <;> simp

/-- Joining the segments of a split returns the original character list:
Python `newline.join(text.split(newline)) == text`. -/
theorem joinNl_splitNl (l : List Char) : joinNl (splitNl l) = l := by
  induction l with
  | nil => rfl
  | cons c cs ih =>
    simp only [splitNl]
    cases h : splitNl cs with
    | nil => exact absurd h (splitNl_ne_nil cs)
    | cons m ms =>
      rw [h] at ih
      show joinNl (if c = '\n' then [] :: m :: ms else (c :: m) :: ms) = c :: cs
      by_cases hc : c = '\n'
      · subst hc
        rw [if_pos rfl]
        show '\n' :: joinNl (m :: ms) = '\n' :: cs
        rw [ih]
      · rw [if_neg hc]
        cases ms with
        | nil => exact congrArg (List.cons c) ih
        | cons m' ms' => exact congrArg (List.cons c) ih

theorem pyJoin_pySplit (s : String) : pyJoin (pySplit s) = s := by
  simp only [pyJoin, pySplit, List.map_map]
  have : (String.data ∘ String.mk) = id := rfl
  rw [this, List.map_id, joinNl_splitNl]

/-! ## LSP data model (the subset the server touches) -/

/-- LSP `Position`: zero-based line / character pair. -/
structure Position where
  line : Nat
  character : Nat
  deriving DecidableEq, Repr

/-- LSP `Range`: start and end positions. -/
structure Range where
  start : Position
  «end» : Position
  deriving DecidableEq, Repr

/-- One element of `params.content_changes`: `range = none` is a full
document replacement, `range = some r` a range (incremental) edit. -/
structure ContentChange where
  range : Option Range
  text : String
  deriving DecidableEq, Repr

/-- The Python exceptions that the edit applicator can raise. -/
inductive PyError where
  /-- `c.range.start` on a change whose range is `None`. -/
  | attributeError
  /-- `lines[i]` with `i` out of bounds. -/
  | indexError
  deriving DecidableEq, Repr

/-! ## Edit applicator: `_apply_incremental_changes` (lines 31-63) -/

/-- The sort key `(c.range.start.line, c.range.start.character)` of line
36 of the source; evaluated only after the guard that models the
`AttributeError` raised when some change has no range. -/
def changeKey (c : ContentChange) : Nat × Nat :=
  match c.range with
  | some r => (r.start.line, r.start.character)
  | none => (0, 0)

/-- Lexicographic comparison of sort keys, as Python compares tuples. -/
def keyLex (p q : Nat × Nat) : Bool :=
  p.1 < q.1 || (p.1 = q.1 && p.2 ≤ q.2)

/-- Stable insertion used to model Python `sorted`. -/
def insertDesc (c : ContentChange) : List ContentChange → List ContentChange
  | [] => [c]
  | d :: ds => if keyLex (changeKey d) (changeKey c) then c :: d :: ds else d :: insertDesc c ds

/-- Python `sorted(changes, key, reverse=True)` of line 36: a stable sort,
descending by `(start.line, start.character)`. -/
def sortChangesDesc (changes : List ContentChange) : List ContentChange :=
  changes.foldr insertDesc []

/-- The `for change in sorted_changes` loop body of lines 38-61, with the
early `return change.text` for a rangeless change and the final
`join` of line 63. -/
def applyLoop (lines : List String) : List ContentChange → Except PyError String
  | [] => .ok (pyJoin lines)
  | change :: rest =>
    match change.range with
    | none => .ok change.text
    | some r =>
      let start_line := r.start.line
      let start_char := r.start.character
      let end_line := r.«end».line
      let end_char := r.«end».character
      if start_line = end_line then
        match lines[start_line]? with
        | none => .error .indexError
        | some line =>
          applyLoop (lines.set start_line (pyTake line start_char ++ change.text ++ pyDrop line end_char)) rest
      else
        let before := if start_line < lines.length then pyTake (lines.getD start_line "") start_char else ""
        let after := if end_line < lines.length then pyDrop (lines.getD end_line "") end_char else ""
        let new_lines := pySplit (before ++ change.text ++ after)
        applyLoop (listSetSlice lines start_line (end_line + 1) new_lines) rest

/-- Model of `_apply_incremental_changes(text, changes)` (lines 31-63).
Python's `sorted` evaluates the key function on every element before
sorting, so a batch containing any rangeless change raises
`AttributeError` (`None` has no attribute `start`) at line 36, before the
loop's own `change.range is None` test at line 39 can run. -/
def apply_incremental_changes (text : String) (changes : List ContentChange) : Except PyError String :=
  let lines := pySplit text
  if changes.any (fun c => c.range.isNone) then
    .error .attributeError
  else
    applyLoop lines (sortChangesDesc changes)

/-! ## Diagnostics data model -/

/-- LSP `DiagnosticSeverity`. The server only ever emits `error`. -/
inductive Severity where
  | error
  | warning
  | information
  | hint
  deriving DecidableEq, Repr

/-- LSP `Diagnostic`, the fields the server populates. -/
structure Diagnostic where
  range : Range
  severity : Severity
  message : String
  deriving DecidableEq, Repr

/-- A tree-sitter syntax-tree node, restricted to the attributes the
server reads: `type`, `is_missing`, `start_point` / `end_point`
(row, column pairs), `start_byte` / `end_byte`, and `children`.
For the claims under verification the source text is a character
sequence, so the byte offsets are code-point offsets (the Python code
indexes the `str` `text` with `start_byte` / `end_byte`, which agree on
single-byte characters). -/
inductive Node where
  | mk (type : String) (is_missing : Bool) (start_point end_point : Nat × Nat)
      (start_byte end_byte : Nat) (children : List Node)

def Node.type : Node → String
  | .mk t _ _ _ _ _ _ => t

def Node.is_missing : Node → Bool
  | .mk _ m _ _ _ _ _ => m

def Node.start_point : Node → Nat × Nat
  | .mk _ _ s _ _ _ _ => s

def Node.end_point : Node → Nat × Nat
  | .mk _ _ _ e _ _ _ => e

def Node.start_byte : Node → Nat
  | .mk _ _ _ _ s _ _ => s

def Node.end_byte : Node → Nat
  | .mk _ _ _ _ _ e _ => e

def Node.children : Node → List Node
  | .mk _ _ _ _ _ _ c => c

/-- Model of `_node_to_range` (lines 74-79): the LSP range of a node,
taken from its start/end (row, column) points. -/
def node_to_range (n : Node) : Range :=
  { start := { line := n.start_point.1, character := n.start_point.2 }
    «end» := { line := n.end_point.1, character := n.end_point.2 } }

/-- The diagnostic built at lines 114-118 for a node of type `ERROR`:
its message embeds `text[n.start_byte : n.end_byte]`. -/
def errorDiagnostic (text : String) (n : Node) : Diagnostic :=
  { range := node_to_range n
    severity := .error
    message := "Syntax error: '" ++ pySlice text n.start_byte n.end_byte ++ "'" }

/-- The diagnostic built at lines 121-125 for a missing node. -/
def missingDiagnostic (n : Node) : Diagnostic :=
  { range := node_to_range n
    severity := .error
    message := "Missing token" }

/-! ## Diagnostic extractor: `_find_syntax_errors` (lines 106-133)

The Python `traverse` appends this node's diagnostic (an `ERROR`-typed
node wins over a missing one because of the `elif`) and then recurses
into the children in order, so the diagnostics come out in pre-order. -/

mutual

/-- Model of `_find_syntax_errors(node, text)`: the diagnostics that
`traverse` accumulates from this node downward. -/
def findSyntaxErrors (text : String) : Node → List Diagnostic
  | .mk ty miss sp ep sb eb ch =>
    (if ty = "ERROR" then
      [errorDiagnostic text (.mk ty miss sp ep sb eb ch)]
    else if miss then
      [missingDiagnostic (.mk ty miss sp ep sb eb ch)]
    else []) ++ findSyntaxErrorsList text ch

/-- The `for child in n.children: traverse(child)` part of the walk. -/
def findSyntaxErrorsList (text : String) : List Node → List Diagnostic
  | [] => []
  | n :: ns => findSyntaxErrors text n ++ findSyntaxErrorsList text ns

end

/-! ## Parse adapter and `_get_diagnostics` -/

/-- The external tree-sitter parser, abstracted as an oracle: on a given
text it either returns a syntax tree or raises (an exception message). -/
def ParserOracle : Type := String → Except String Node

/-- Model of `_parse(text)` (lines 65-72): the parser call is wrapped in
`try/except`; any exception is caught (and logged) and `None` is
returned, never propagated. -/
def parse (parser : ParserOracle) (text : String) : Option Node :=
  match parser text with
  | .ok tree => some tree
  | .error _ => none

/-- Model of `_get_diagnostics(tree, text)` (lines 81-104). When the
tree is `None` it returns the single parser-failure diagnostic at
(0,0)-(0,0). Otherwise it returns `_find_syntax_errors(root_node, text)`;
the `if not diagnostics and root_node.has_error` branch at lines 100-102
only logs and does not change the result. -/
def get_diagnostics (tree : Option Node) (text : String) : List Diagnostic :=
  match tree with
  | none =>
    [{ range := { start := { line := 0, character := 0 }, «end» := { line := 0, character := 0 } }
       severity := .error
       message := "Failed to parse Verilog code - tree-sitter parser not available" }]
  | some root_node => findSyntaxErrors text root_node

/-- Model of `_analyze_document(text)` (lines 135-144): parse, then
extract diagnostics (the intervening statements only log). -/
def analyze_document (parser : ParserOracle) (text : String) : List Diagnostic :=
  get_diagnostics (parse parser text) text

/-! ## Document store and the `didChange` handler (lines 163-192) -/

/-- The `self.documents` dict: an association list from URI to text,
with at most one entry per key. -/
abbrev DocStore : Type := List (String × String)

/-- Python `self.documents.get(uri, "")` (line 173). -/
def storeGet (docs : DocStore) (uri : String) : String :=
  match docs with
  | [] => ""
  | (k, v) :: rest => if k = uri then v else storeGet rest uri

/-- Python `self.documents[uri] = text` (line 188): replace the entry
for `uri`, or append one. -/
def storeSet (docs : DocStore) (uri : String) (text : String) : DocStore :=
  match docs with
  | [] => [(uri, text)]
  | (k, v) :: rest => if k = uri then (k, text) :: rest else (k, v) :: storeSet rest uri text

/-- What a run of the `did_change` handler leaves behind: the updated
document store and the `publish_diagnostics` notification it sent, if
any. -/
structure ChangeResult where
  documents : DocStore
  published : Option (String × List Diagnostic)
  deriving DecidableEq, Repr

/-- Model of the `did_change` handler (lines 163-192).  An empty change
batch returns early (no store update, no publish).  Otherwise, when the
first change has no range the whole batch is a full replacement by that
change's text; otherwise `_apply_incremental_changes` is applied to the
stored text (default `""`), and an exception from it aborts the handler
before the store update and the publish. -/
def did_change (parser : ParserOracle) (docs : DocStore) (uri : String)
    (content_changes : List ContentChange) : Except PyError ChangeResult :=
  match content_changes with
  | [] => .ok { documents := docs, published := none }
  | first_change :: _ =>
    let current_text := storeGet docs uri
    match first_change.range with
    | none =>
      let new_text := first_change.text
      .ok { documents := storeSet docs uri new_text
            published := some (uri, analyze_document parser new_text) }
    | some _ =>
      match apply_incremental_changes current_text content_changes with
      | .error e => .error e
      | .ok new_text =>
        .ok { documents := storeSet docs uri new_text
              published := some (uri, analyze_document parser new_text) }

/-! ## Derived notions used to state the claims -/

mutual

/-- The error-typed nodes of a tree, in pre-order (the order `traverse`
visits them). -/
def errorNodes : Node → List Node
  | .mk ty miss sp ep sb eb ch =>
    (if ty = "ERROR" then [Node.mk ty miss sp ep sb eb ch] else []) ++ errorNodesList ch

def errorNodesList : List Node → List Node
  | [] => []
  | n :: ns => errorNodes n ++ errorNodesList ns

end

mutual

/-- Every missing node of the tree is itself an `ERROR`-typed node (so
no separate `Missing token` diagnostic arises). -/
def noPlainMissing : Node → Bool
  | .mk ty miss _ _ _ _ ch => (!miss || decide (ty = "ERROR")) && noPlainMissingList ch

def noPlainMissingList : List Node → Bool
  | [] => true
  | n :: ns => noPlainMissing n && noPlainMissingList ns

end

mutual

/-- Whether the tree contains an `ERROR`-typed node. -/
def hasErrorNode : Node → Bool
  | .mk ty _ _ _ _ _ ch => decide (ty = "ERROR") || hasErrorNodeList ch

def hasErrorNodeList : List Node → Bool
  | [] => false
  | n :: ns => hasErrorNode n || hasErrorNodeList ns

end

mutual

/-- No ancestor/descendant pair of `ERROR`-typed nodes: each error node
has no error node strictly below it. -/
def independentErrors : Node → Bool
  | .mk ty _ _ _ _ _ ch =>
    if ty = "ERROR" then !hasErrorNodeList ch else independentErrorsList ch

def independentErrorsList : List Node → Bool
  | [] => true
  | n :: ns => independentErrors n && independentErrorsList ns

end

/-- Modelled from the spec's words for a range edit (section 4.1), to be
compared with `_apply_incremental_changes`: a single-line edit replaces
the substring between the start and end character offsets on the
designated line; a multi-line edit preserves the segment before the
start position and the segment after the end position, splices the
edit's text between them, re-splits, and substitutes the result for the
inclusive start..end line span. -/
def specApplyRangeEdit (text : String) (startLine startChar endLine endChar : Nat)
    (s : String) : String :=
  let lines := pySplit text
  if startLine = endLine then
    let line := lines.getD startLine ""
    pyJoin (lines.set startLine (pyTake line startChar ++ s ++ pyDrop line endChar))
  else
    let before := pyTake (lines.getD startLine "") startChar
    let after := pyDrop (lines.getD endLine "") endChar
    pyJoin (lines.take startLine ++ pySplit (before ++ s ++ after) ++ lines.drop (endLine + 1))

theorem storeGet_storeSet (docs : DocStore) (uri s : String) :
    storeGet (storeSet docs uri s) uri = s := by
  induction docs with
  | nil => simp [storeGet, storeSet]
  | cons kv rest ih =>
    obtain ⟨k, v⟩ := kv
    by_cases h : k = uri
    · simp [storeSet, storeGet, h]
    · simp [storeSet, storeGet, h, ih]

mutual

/-- When every missing node is an error node, the extractor's output is
exactly the error diagnostics of the pre-order list of error nodes. -/
theorem findSyntaxErrors_eq_map (text : String) :
    (n : Node) → noPlainMissing n = true →
      findSyntaxErrors text n = (errorNodes n).map (errorDiagnostic text)
  | .mk ty miss sp ep sb eb ch, h => by
    have hparts : (!miss || decide (ty = "ERROR")) = true ∧ noPlainMissingList ch = true := by
      simpa [noPlainMissing, Bool.and_eq_true] using h
    have hrec := findSyntaxErrorsList_eq_map text ch hparts.2
    by_cases hty : ty = "ERROR"
    · simp [findSyntaxErrors, errorNodes, hty, hrec]
    · have hmiss : miss = false := by
        rcases hparts.1 with h1
        simp [hty] at h1
        exact h1
      simp [findSyntaxErrors, errorNodes, hty, hmiss, hrec]

theorem findSyntaxErrorsList_eq_map (text : String) :
    (ns : List Node) → noPlainMissingList ns = true →
      findSyntaxErrorsList text ns = (errorNodesList ns).map (errorDiagnostic text)
  | [], _ => rfl
  | n :: ns, h => by
    have hparts : noPlainMissing n = true ∧ noPlainMissingList ns = true := by
      simpa [noPlainMissingList, Bool.and_eq_true] using h
    simp [findSyntaxErrorsList, errorNodesList,
      findSyntaxErrors_eq_map text n hparts.1, findSyntaxErrorsList_eq_map text ns hparts.2]

end

/-! ## Claims -/

/-- Claim C1: the claim says a batch consisting of a single FullReplace
edit yields the edit's text.  The code disagrees: the sort key of line
36 evaluates `c.range.start` on the rangeless change and raises
`AttributeError`, so the full-replacement branch at lines 39-41 of
`_apply_incremental_changes` is unreachable for any batch containing a
rangeless change.  This theorem evaluates the model at the failing
input. -/
theorem full_replace_batch_raises :
    apply_incremental_changes "abc" [{ range := none, text := "new" }] =
      .error .attributeError := rfl

/-- Claim C7: handling a change notification with an empty content-change
batch is a no-op: the handler returns without publishing and the
document store is unchanged. -/
theorem did_change_empty_batch_noop (parser : ParserOracle) (docs : DocStore) (uri : String) :
    did_change parser docs uri [] = .ok { documents := docs, published := none } := rfl

/-- Claim C8: when the first change of a non-empty batch has no range,
the whole batch is a full replacement: the stored text for the URI
becomes exactly the first change's text and the remaining entries of
the batch are ignored (the result does not depend on `rest`). -/
theorem did_change_full_sync_first_change (parser : ParserOracle) (docs : DocStore)
    (uri s : String) (rest : List ContentChange) :
    did_change parser docs uri ({ range := none, text := s } :: rest) =
      .ok { documents := storeSet docs uri s
            published := some (uri, analyze_document parser s) }
    ∧ storeGet (storeSet docs uri s) uri = s :=
  ⟨rfl, storeGet_storeSet docs uri s⟩

/-- Claim C10: the applicator with no edits is the identity on texts
(splitting on the newline character and rejoining restores the text). -/
theorem apply_no_edits_identity (text : String) :
    apply_incremental_changes text [] = .ok text := by
  simp [apply_incremental_changes, sortChangesDesc, applyLoop, pyJoin_pySplit]

/-- Claim C6 counterexample: the claim says an empty batch fails with
`InvalidEditError`; in the code no such error exists and the applicator
silently returns a text (the unchanged input). -/
theorem empty_batch_does_not_fail :
    apply_incremental_changes "abc" [] = .ok "abc" := rfl

/-- Claim C6 as amended: invoking the edit applicator with an empty
batch of edits does not fail; it silently returns a text (the guard
against empty batches lives in the `did_change` handler instead). -/
theorem empty_batch_returns_a_text (text : String) :
    ∃ result, apply_incremental_changes text [] = Except.ok result := by
  refine ⟨text, ?_⟩
  simp [apply_incremental_changes, sortChangesDesc, applyLoop, pyJoin_pySplit]

/-- Claim C5: when the external parser raises, `_parse` catches the
exception and returns `None`, and `_get_diagnostics` then returns
exactly one diagnostic at (0,0)-(0,0) with severity Error and the
parser-failure message. -/
theorem parse_failure_single_diagnostic (parser : ParserOracle) (text msg : String)
    (h : parser text = .error msg) :
    analyze_document parser text =
      [{ range := { start := { line := 0, character := 0 }
                    «end» := { line := 0, character := 0 } }
         severity := .error
         message := "Failed to parse Verilog code - tree-sitter parser not available" }] := by
  simp [analyze_document, parse, h, get_diagnostics]

theorem parse_failure_single_diagnostic_witness :
    (fun _ : String => (Except.error "parser crashed" : Except String Node)) "module" =
      .error "parser crashed" ∧
    analyze_document (fun _ : String => (Except.error "parser crashed" : Except String Node))
        "module" =
      [{ range := { start := { line := 0, character := 0 }
                    «end» := { line := 0, character := 0 } }
         severity := .error
         message := "Failed to parse Verilog code - tree-sitter parser not available" }] :=
  ⟨rfl, parse_failure_single_diagnostic (fun _ => .error "parser crashed") "module"
    "parser crashed" rfl⟩

/-- Claim C4: a node that is both of the sentinel `ERROR` type and
tagged missing yields exactly one diagnostic for that node — the
error-type one, whose message embeds the exact spanned substring — and
no `Missing token` diagnostic for the same node (the `elif` at line 120
is skipped). -/
theorem error_node_suppresses_missing (text : String) (sp ep : Nat × Nat) (sb eb : Nat)
    (ch : List Node) :
    findSyntaxErrors text (.mk "ERROR" true sp ep sb eb ch) =
      errorDiagnostic text (.mk "ERROR" true sp ep sb eb ch) :: findSyntaxErrorsList text ch
    ∧ (errorDiagnostic text (.mk "ERROR" true sp ep sb eb ch)).message =
        "Syntax error: '" ++ pySlice text sb eb ++ "'" := by
  exact ⟨by simp [findSyntaxErrors], rfl⟩

/-- Claim C2 counterexample: the claim promises that out-of-bounds
lines never raise, "for both single-line and multi-line edits".  For a
single-line edit the code indexes `lines[start_line]` (line 50)
unguarded, so a start line beyond the line count raises `IndexError`. -/
theorem single_line_out_of_bounds_raises :
    apply_incremental_changes "line0"
      [{ range := some { start := { line := 5, character := 0 }
                         «end» := { line := 5, character := 0 } }
         text := "x" }] = .error .indexError := rfl

/-- Claim C2 as amended: only in the multi-line case (start line ≠ end
line) is an out-of-bounds start or end line treated as an empty trailing
segment (the guards at lines 55-57 and the clamping slice assignment at
line 61): the applicator raises no exception and returns a result text.
A single-line edit beyond the line count raises `IndexError` instead. -/
theorem multi_line_out_of_bounds_clamped (text : String) (sl sc el ec : Nat) (s : String)
    (hne : sl ≠ el)
    (hoob : (pySplit text).length ≤ sl ∨ (pySplit text).length ≤ el) :
    ∃ result, apply_incremental_changes text
      [{ range := some { start := { line := sl, character := sc }
                         «end» := { line := el, character := ec } }
         text := s }] = Except.ok result := by
  simp only [apply_incremental_changes, sortChangesDesc, List.foldr, insertDesc,
    List.any_cons, List.any_nil, Option.isNone_some, Bool.or_false, Bool.false_eq_true,
    if_false, applyLoop, if_neg hne]
  exact ⟨_, rfl⟩

theorem multi_line_out_of_bounds_clamped_witness :
    ((0 : Nat) ≠ 2 ∧ ((pySplit "a").length ≤ 0 ∨ (pySplit "a").length ≤ 2)) ∧
      ∃ result, apply_incremental_changes "a"
        [{ range := some { start := { line := 0, character := 0 }
                           «end» := { line := 2, character := 0 } }
           text := "x" }] = Except.ok result :=
  ⟨⟨by decide, Or.inr (by decide)⟩,
    multi_line_out_of_bounds_clamped "a" 0 0 2 0 "x" (by decide) (Or.inr (by decide))⟩

/-- A tree with exactly one independent `ERROR` node and one missing
(non-error) node elsewhere, used to refute the literal count of claim
C3. -/
def mixedTree : Node :=
  .mk "source_file" false (0, 0) (0, 2) 0 2
    [.mk "ERROR" false (0, 0) (0, 1) 0 1 [],
     .mk "statement" true (0, 1) (0, 1) 1 1 []]

/-- Claim C3 counterexample: a tree containing exactly one independent
error-type node can still produce two diagnostics, because a missing
non-error node adds a `Missing token` diagnostic; so "exactly N
diagnostics" fails as stated. -/
theorem error_count_includes_missing_nodes :
    independentErrors mixedTree = true ∧ (errorNodes mixedTree).length = 1 ∧
      (findSyntaxErrors "ab" mixedTree).length = 2 :=
  ⟨rfl, rfl, rfl⟩

/-- Claim C3 as amended: for a tree with N independent error-type nodes
in which every missing node is itself an error-type node, extraction
returns exactly the error diagnostics of the error nodes in pre-order —
each spanning its node's start/end position, with severity Error and
message embedding the exact spanned substring — hence exactly N
diagnostics.  (A missing non-error node adds a separate `Missing token`
diagnostic, as the counterexample shows.) -/
theorem extract_error_diagnostics (text : String) (n : Node)
    (hm : noPlainMissing n = true) (hi : independentErrors n = true) :
    findSyntaxErrors text n = (errorNodes n).map (errorDiagnostic text) ∧
      (findSyntaxErrors text n).length = (errorNodes n).length :=
  have h := findSyntaxErrors_eq_map text n hm
  ⟨h, by rw [h, List.length_map]⟩

/-- A tree whose only anomaly is a single `ERROR` node (which is also
missing), satisfying both hypotheses of the amended claim C3. -/
def errorOnlyTree : Node :=
  .mk "source_file" false (0, 0) (0, 2) 0 2
    [.mk "ERROR" true (0, 0) (0, 2) 0 2 []]

theorem extract_error_diagnostics_witness :
    (noPlainMissing errorOnlyTree = true ∧ independentErrors errorOnlyTree = true) ∧
      (findSyntaxErrors "ab" errorOnlyTree =
          (errorNodes errorOnlyTree).map (errorDiagnostic "ab") ∧
        (findSyntaxErrors "ab" errorOnlyTree).length = (errorNodes errorOnlyTree).length) :=
  ⟨⟨rfl, rfl⟩, extract_error_diagnostics "ab" errorOnlyTree rfl rfl⟩

/-- Claim C9: on in-bounds lines (start ≤ end < line count) a single
range edit computes exactly the text the spec describes: single-line
edits replace the in-line span, multi-line edits keep the prefix of the
start line and the suffix of the end line, splice the edit's text,
re-split, and substitute for the inclusive line span. -/
theorem range_edit_matches_spec (text : String) (sl sc el ec : Nat) (s : String)
    (hle : sl ≤ el) (hel : el < (pySplit text).length) :
    apply_incremental_changes text
      [{ range := some { start := { line := sl, character := sc }
                         «end» := { line := el, character := ec } }
         text := s }] = .ok (specApplyRangeEdit text sl sc el ec s) := by
  have hsl : sl < (pySplit text).length := Nat.lt_of_le_of_lt hle hel
  by_cases heq : sl = el
  · subst heq
    have hget : (pySplit text)[sl]? = some ((pySplit text).getD sl "") := by
      rw [List.getElem?_eq_getElem hsl, List.getD_eq_getElem _ _ hsl]
    simp only [apply_incremental_changes, sortChangesDesc, List.foldr, insertDesc,
      List.any_cons, List.any_nil, Option.isNone_some, Bool.or_false, Bool.false_eq_true,
      if_false, applyLoop, hget, specApplyRangeEdit, eq_self_iff_true, if_true]
  · have hmax : max sl (el + 1) = el + 1 := by omega
    simp [apply_incremental_changes, sortChangesDesc, insertDesc, applyLoop, heq,
      specApplyRangeEdit, listSetSlice, hsl, hel, hmax]

theorem range_edit_matches_spec_witness :
    ((0 : Nat) ≤ 1 ∧ 1 < (pySplit "ab\ncd").length) ∧
      apply_incremental_changes "ab\ncd"
        [{ range := some { start := { line := 0, character := 1 }
                           «end» := { line := 1, character := 1 } }
           text := "X" }] = .ok (specApplyRangeEdit "ab\ncd" 0 1 1 1 "X") :=
  ⟨⟨by decide, by decide⟩, range_edit_matches_spec "ab\ncd" 0 1 1 1 "X" (by decide) (by decide)⟩

end VerilogLsp
